import Mathlib

/-!
Verification of the Ryssa theme client-side script (`assets/animations.js`).

The JavaScript source is shallowly embedded in Lean: the DOM is a finite tree
of elements (tag name, class list, attribute list, children), an element is
identified by its path from the root (the list of child indices taken on the
way down), and each module's DOM-reading and DOM-writing behaviour is
translated into pure functions over this model.  Browser event callbacks
become explicit state-transition functions, and sequences of delivered events
become lists processed by folds.
-/

namespace Ryssa

/-- A DOM element: tag name, class list, attribute list and child elements. -/
inductive Dom : Type where
  | node (tag : String) (classes : List String) (attrs : List (String × String))
      (children : List Dom)

/-- Tag name of an element. -/
def Dom.tag : Dom → String
  | .node t _ _ _ => t

/-- Class list of an element. -/
def Dom.classes : Dom → List String
  | .node _ c _ _ => c

/-- Attribute list of an element. -/
def Dom.attrs : Dom → List (String × String)
  | .node _ _ a _ => a

/-- Direct children of an element. -/
def Dom.children : Dom → List Dom
  | .node _ _ _ ch => ch

/-- The element reached from `d` by following the child indices in `p`. -/
def subtreeAt : Dom → List Nat → Option Dom
  | d, [] => some d
  | d, i :: rest =>
    match (Dom.children d).get? i with
    | some c => subtreeAt c rest
    | none => none

/-- The paths of the ancestors of the element at `p`, listed from the element
itself up to the root: `element.closest` starts at the element and walks up. -/
def ancestorPaths (p : List Nat) : List (List Nat) :=
  ((List.range (p.length + 1)).reverse).map fun k => p.take k

/-- `element.closest(sel)`: the path of the nearest ancestor (the element
itself included) matching the selector, or `none`. -/
def closest (root : Dom) (sel : Dom → Bool) (p : List Nat) : Option (List Nat) :=
  (ancestorPaths p).find? fun q =>
    match subtreeAt root q with
    | some d => sel d
    | none => false

/-- Class selector `.c`. -/
def hasClass (c : String) (d : Dom) : Bool :=
  (Dom.classes d).contains c

/-- Tag-name selector. -/
def hasTag (t : String) (d : Dom) : Bool :=
  Dom.tag d == t

/-- `getAttribute`: the value of attribute `a`, if present. -/
def getAttr (d : Dom) (a : String) : Option String :=
  match (Dom.attrs d).find? (fun kv => kv.1 == a) with
  | some kv => some kv.2
  | none => none

mutual

/-- `querySelectorAll(sel)` on the subtree rooted at an element: the paths
(relative to that element) of all matching elements, in document order. -/
def queryAll (sel : Dom → Bool) : Dom → List (List Nat)
  | .node t cls ats ch =>
    (if sel (.node t cls ats ch) then [[]] else []) ++ queryAllChildren sel ch 0

/-- Helper for `queryAll`: the matches inside a list of children, the first of
which sits at child index `i`. -/
def queryAllChildren (sel : Dom → Bool) : List Dom → Nat → List (List Nat)
  | [], _ => []
  | c :: rest, i =>
    (queryAll sel c).map (fun p => i :: p) ++ queryAllChildren sel rest (i + 1)

end

/-- `querySelector(sel)`: the first match in document order, if any. -/
def querySelector (sel : Dom → Bool) (d : Dom) : Option (List Nat) :=
  (queryAll sel d).head?

/-! ### Fade-In Reveal Observer: stagger computation

`FadeInObserver.getStaggerDelay` in the source:

* `element.closest('.ryssa-grid__items, .lookbook-grid, .product-grid__items,
  .site-footer__grid')` looks for a known grid container;
* `siblings = Array.from(parent.children)`;
* `index = siblings.indexOf(element.closest('article') ||
  element.closest('div') || element)` (`indexOf` yields `-1` when absent);
* result `Math.max(0, index * 100)`, or `0` with no container.
-/

/-- The grid-container selector list used by `getStaggerDelay`. -/
def isGridContainer (d : Dom) : Bool :=
  hasClass "ryssa-grid__items" d || hasClass "lookbook-grid" d ||
    hasClass "product-grid__items" d || hasClass "site-footer__grid" d

/-- `parent.children`: the paths of the direct children of the element at `q`,
in order. -/
def childPaths (root : Dom) (q : List Nat) : List (List Nat) :=
  match subtreeAt root q with
  | some d => (List.range (Dom.children d).length).map fun i => q ++ [i]
  | none => []

/-- `Array.prototype.indexOf`: the index of `w` in `l`, or `-1`. -/
def indexOfPath (l : List (List Nat)) (w : List Nat) : Int :=
  match l.findIdx? (fun s => s == w) with
  | some i => (i : Int)
  | none => -1

/-- `element.closest('article') || element.closest('div') || element`: the
node whose index among the container's children is looked up. -/
def staggerWrapper (root : Dom) (p : List Nat) : List Nat :=
  match closest root (hasTag "article") p with
  | some a => a
  | none =>
    match closest root (hasTag "div") p with
    | some dv => dv
    | none => p

/-- `siblings.indexOf(...)` of `getStaggerDelay`, for container `q`. -/
def staggerIndex (root : Dom) (q p : List Nat) : Int :=
  indexOfPath (childPaths root q) (staggerWrapper root p)

/-- `FadeInObserver.getStaggerDelay`, in milliseconds. -/
def getStaggerDelay (root : Dom) (p : List Nat) : Int :=
  match closest root isGridContainer p with
  | some q => max 0 (staggerIndex root q p * 100)
  | none => 0

/-- The stagger computation as described by the corrected claim C4: the
element is always replaced by its closest article ancestor-or-self, else its
closest div ancestor-or-self, else itself (the substitution is unconditional);
the delay is 100ms times that node's position among the grid container's
direct children, and 0 when that node is not a direct child of the container
or when no grid container is found. -/
def staggerDelayStated (root : Dom) (p : List Nat) : Int :=
  match closest root isGridContainer p with
  | none => 0
  | some q =>
    let w := ((closest root (hasTag "article") p).orElse
      fun _ => closest root (hasTag "div") p).getD p
    match (childPaths root q).findIdx? (fun s => decide (s = w)) with
    | some i => (i : Int) * 100
    | none => 0

/-! ### Header Scroll Controller -/

/-- The scroll state of `HeaderScroll`: the stored `lastScrollY`, and whether
the header currently carries the `site-header--hidden` class.  The scroll
handler is only attached when the header element exists. -/
structure HeaderState where
  lastScrollY : Nat
  hidden : Bool
deriving DecidableEq

/-- `HeaderScroll.handleScroll` at a new scroll position `currentScrollY`:
adds the hidden class when scrolling down past 100px, removes it otherwise,
then stores the new position. -/
def handleScroll (st : HeaderState) (currentScrollY : Nat) : HeaderState :=
  if currentScrollY > st.lastScrollY && currentScrollY > 100 then
    { lastScrollY := currentScrollY, hidden := true }
  else
    { lastScrollY := currentScrollY, hidden := false }

/-! ### Mobile Menu Controller -/

/-- The observable state written by `MobileMenu`: its `isOpen` flag, the
overlay's `active` class (a Boolean, since `classList.add` and
`classList.remove` are idempotent), the aria attributes of overlay and
toggle, and the body's inline overflow / padding-right styles. -/
structure MenuState where
  isOpen : Bool
  overlayActive : Bool
  overlayAriaHidden : String
  toggleAriaExpanded : String
  toggleAriaLabel : String
  bodyOverflow : String
  bodyPaddingRight : String
deriving DecidableEq

/-- `MobileMenu.openMenu`; `scrollbarWidth` is the value cached by the
constructor. -/
def openMenu (scrollbarWidth : Nat) (_s : MenuState) : MenuState :=
  { isOpen := true
    overlayActive := true
    overlayAriaHidden := "false"
    toggleAriaExpanded := "true"
    toggleAriaLabel := "Close menu"
    bodyOverflow := "hidden"
    bodyPaddingRight := toString scrollbarWidth ++ "px" }

/-- `MobileMenu.closeMenu`. -/
def closeMenu (_s : MenuState) : MenuState :=
  { isOpen := false
    overlayActive := false
    overlayAriaHidden := "true"
    toggleAriaExpanded := "false"
    toggleAriaLabel := "Open menu"
    bodyOverflow := ""
    bodyPaddingRight := "" }

/-- `MobileMenu.toggleMenu`. -/
def toggleMenu (scrollbarWidth : Nat) (s : MenuState) : MenuState :=
  if s.isOpen then closeMenu s else openMenu scrollbarWidth s

/-- The menu state reached by `openMenu`. -/
def openState (scrollbarWidth : Nat) : MenuState :=
  { isOpen := true
    overlayActive := true
    overlayAriaHidden := "false"
    toggleAriaExpanded := "true"
    toggleAriaLabel := "Close menu"
    bodyOverflow := "hidden"
    bodyPaddingRight := toString scrollbarWidth ++ "px" }

/-- The menu state reached by `closeMenu`. -/
def closedState : MenuState :=
  { isOpen := false
    overlayActive := false
    overlayAriaHidden := "true"
    toggleAriaExpanded := "false"
    toggleAriaLabel := "Open menu"
    bodyOverflow := ""
    bodyPaddingRight := "" }

/-- The three operations of the mobile-menu state machine. -/
inductive MenuOp : Type where
  | toggleOp
  | openOp
  | closeOp

/-- Run one mobile-menu operation. -/
def applyMenuOp (scrollbarWidth : Nat) : MenuOp → MenuState → MenuState
  | .toggleOp, s => toggleMenu scrollbarWidth s
  | .openOp, s => openMenu scrollbarWidth s
  | .closeOp, s => closeMenu s

/-! ### Newsletter Form Validator -/

/-- The character class `\s` of a JavaScript regular expression (restricted to
the whitespace characters that can occur in the inputs considered here). -/
def isJsSpace (c : Char) : Bool :=
  c == ' ' || c == '\t' || c == '\n' || c == '\r' || c == '\x0b' || c == '\x0c' ||
    c == ' '

/-- The character class `[^\s@]` of the email regular expression. -/
def isAtomChar (c : Char) : Bool :=
  !(isJsSpace c) && c != '@'

/-- All characters of `l` lie in `[^\s@]`. -/
def allAtom (l : List Char) : Bool :=
  l.all isAtomChar

/-- Matching `[^\s@]+\.[^\s@]+` against the whole of `l` (the part of the
email pattern after the `@`): some dot splits `l` into two nonempty blocks of
`[^\s@]` characters. -/
def matchDomain (l : List Char) : Bool :=
  (List.range l.length).any fun k =>
    decide (0 < k) && decide (k + 1 < l.length) && (l.get? k == some '.') &&
      allAtom (l.take k) && allAtom (l.drop (k + 1))

/-- `NewsletterForm.validateEmail`: the input matches the anchored pattern
`^[^\s@]+@[^\s@]+\.[^\s@]+$`, that is, it splits at an `@` into a nonempty
`[^\s@]` block and a domain part matching `[^\s@]+\.[^\s@]+`. -/
def validateEmail (s : String) : Bool :=
  let l := s.toList
  (List.range l.length).any fun j =>
    (l.get? j == some '@') && decide (0 < j) &&
      allAtom (l.take j) && matchDomain (l.drop (j + 1))

/-- `String.prototype.trim`: strip whitespace from both ends. -/
def jsTrim (s : String) : String :=
  String.mk (((s.toList.dropWhile isJsSpace).reverse.dropWhile isJsSpace).reverse)

/-- The observable outcome of one submit event on a newsletter form: whether
`preventDefault` was called, the message container's text and class list, and
whether the email input got focused. -/
structure SubmitOutcome where
  defaultPrevented : Bool
  msgText : String
  msgClasses : List String
  inputFocused : Bool
deriving DecidableEq

/-- `classList.add` of one token (idempotent). -/
def addClassStr (l : List String) (c : String) : List String :=
  if l.contains c then l else l ++ [c]

/-- `classList.remove` of one token. -/
def removeClassStr (l : List String) (c : String) : List String :=
  l.filter fun x => x != c

/-- The submit listener installed by `NewsletterForm.init`: `inputPresent` and
`msgPresent` say whether `form.querySelector` found the email input and the
message container, `value` is the input's current value, and `st` is the state
of the page before the event. -/
def handleSubmit (inputPresent : Bool) (value : String) (msgPresent : Bool)
    (st : SubmitOutcome) : SubmitOutcome :=
  if !inputPresent then st
  else
    let email := jsTrim value
    if !(validateEmail email) then
      let st1 := { st with defaultPrevented := true }
      let st2 :=
        if msgPresent then
          { st1 with
            msgText := "Please enter a valid email address."
            msgClasses :=
              removeClassStr (addClassStr (addClassStr st1.msgClasses "visible") "error")
                "success" }
        else st1
      { st2 with inputFocused := true }
    else st

/-! ### Fade-In Reveal Observer: observer callback

The intersection-observer callback of `FadeInObserver.init`: a delivered entry
carries a target and its `isIntersecting` flag; on an intersecting entry the
code schedules `classList.add('visible')` (after the stagger delay) and calls
`this.observer.unobserve(target)`.  Targets are abstract identifiers; the
state records which targets are still observed and, per target, how many times
the visible flag (and its stagger timer) has been scheduled.  The browser
contract delivers entries only for targets currently observed, which the
predicate `validTrace` captures. -/

/-- State of one `FadeInObserver` instance's observer. -/
structure FadeState where
  observed : List Nat
  visCount : Nat → Nat

/-- Processing one delivered intersection entry. -/
def processEntry (st : FadeState) (target : Nat) (isIntersecting : Bool) : FadeState :=
  if isIntersecting then
    { observed := st.observed.filter fun x => x != target
      visCount := fun t => if t = target then st.visCount t + 1 else st.visCount t }
  else st

/-- Processing a whole sequence of delivered entries. -/
def processEntries (st : FadeState) (entries : List (Nat × Bool)) : FadeState :=
  entries.foldl (fun s e => processEntry s e.1 e.2) st

/-- The browser contract: every delivered entry's target is observed at the
moment it is delivered. -/
def validTrace : FadeState → List (Nat × Bool) → Bool
  | _, [] => true
  | st, e :: rest => st.observed.contains e.1 && validTrace (processEntry st e.1 e.2) rest

/-- The state right after `init` attached the observer to the selected
elements: all observed, no visible flag scheduled yet. -/
def initFadeState (elems : List Nat) : FadeState :=
  { observed := elems, visCount := fun _ => 0 }

/-! ### Fade-In Reveal Observer: constructor and fallback -/

/-- `el.classList.add('visible')`, phrased on the set of elements (paths) that
carry the `visible` class. -/
def classListAdd (visible : List (List Nat)) (el : List Nat) : List (List Nat) :=
  if visible.contains el then visible else visible ++ [el]

/-- The set of elements carrying `visible` after `new FadeInObserver(scope)`
returns, in a browser where `IntersectionObserver` support is `supported`:
the constructor selects `.fade-in` elements in the scope and calls `init` when
any were found; without support, `init` immediately adds `visible` to each
selected element and returns. With support, `init` only attaches the observer,
leaving the class sets unchanged. -/
def fadeInConstructVisible (supported : Bool) (scope : Dom)
    (visible : List (List Nat)) : List (List Nat) :=
  let elements := queryAll (hasClass "fade-in") scope
  if elements.isEmpty then visible
  else if supported then visible
  else elements.foldl classListAdd visible

/-! ### Startup routine: element queries of the seven modules -/

/-- Selector `a[href^="#"]` of `SmoothScroll`. -/
def isAnchorLink (d : Dom) : Bool :=
  hasTag "a" d &&
    match getAttr d "href" with
    | some h => h.startsWith "#"
    | none => false

/-- Selector `img[loading="lazy"]` of `LazyLoadImages`. -/
def isLazyImage (d : Dom) : Bool :=
  hasTag "img" d && getAttr d "loading" == some "lazy"

/-- The elements selected by each module's constructor during one run of
`initializeModules`. -/
structure ModuleQueries where
  headerEl : Option (List Nat)
  menuToggleEl : Option (List Nat)
  menuOverlayEl : Option (List Nat)
  fadeInEls : List (List Nat)
  parallaxEls : List (List Nat)
  anchorLinkEls : List (List Nat)
  newsletterFormEls : List (List Nat)
  lazyImageEls : List (List Nat)
deriving DecidableEq

/-- The element queries run by `initializeModules(scope)` over the document
`doc`, where `sp` is the path of the scope element inside `doc`.  Only
`FadeInObserver` receives the scope (`new FadeInObserver(scope)`); every other
constructor queries `document`.  Paths are absolute: the scoped fade-in query
returns paths prefixed by the scope path. -/
def initializeModulesQueries (doc : Dom) (sp : List Nat) : ModuleQueries :=
  { headerEl := querySelector (hasClass "site-header") doc
    menuToggleEl := querySelector (hasClass "site-header__menu-toggle") doc
    menuOverlayEl := querySelector (hasClass "mobile-nav-overlay") doc
    fadeInEls :=
      match subtreeAt doc sp with
      | some sc => (queryAll (hasClass "fade-in") sc).map fun r => sp ++ r
      | none => []
    parallaxEls := queryAll (hasClass "parallax-element") doc
    anchorLinkEls := queryAll isAnchorLink doc
    newsletterFormEls := queryAll (hasClass "newsletter-form") doc
    lazyImageEls := queryAll isLazyImage doc }

/-- `p` lies in the subtree of the scope at path `sp`. -/
def withinScope (sp p : List Nat) : Bool :=
  p.take sp.length == sp

/-! ### Startup routine: error handling

`initializeModules` runs the seven constructions inside one `try` block; the
single `catch` logs via `console.warn` and returns normally.  Each
construction is abstracted by its outcome (`Except.ok` or a thrown error) and
`runTry` yields how many constructions completed and the logged error, if
any. -/

/-- Semantics of `try { a1; ...; an } catch (e) { console.warn(e) }`: the
number of actions that completed, and the message logged by the catch. -/
def runTry : List (Except String Unit) → Nat × Option String
  | [] => (0, none)
  | act :: rest =>
    match act with
    | .ok _ => ((runTry rest).1 + 1, (runTry rest).2)
    | .error msg => (0, some msg)

/-! ### Concrete documents used by counterexamples and witnesses -/

/-- A grid container (`div.lookbook-grid`) whose direct children are a plain
span, an article marked `fade-in`, and a span marked `fade-in`. -/
def staggerCounterDoc : Dom :=
  .node "div" ["lookbook-grid"] []
    [ .node "span" [] [] []
    , .node "article" ["fade-in"] [] []
    , .node "span" ["fade-in"] [] [] ]

/-- A document whose first child is a scope wrapper containing a `fade-in`
element and whose second child is a `parallax-element` outside that scope. -/
def scopeCounterDoc : Dom :=
  .node "html" [] []
    [ .node "div" [] [] [.node "p" ["fade-in"] [] []]
    , .node "div" ["parallax-element"] [] [] ]

/-- Seven module constructions of which the first throws. -/
def failFirstInits : List (Except String Unit) :=
  [.error "boom", .ok (), .ok (), .ok (), .ok (), .ok (), .ok ()]

/-! ## Helper lemmas -/

/-- Rewriting `max 0 (indexOf w * 100)` into the explicit per-case form used
by the amended claim C4. -/
theorem indexOfPath_delay (l : List (List Nat)) (w : List Nat) :
    max 0 (indexOfPath l w * 100) =
      match l.findIdx? (fun s => decide (s = w)) with
      | some i => (i : Int) * 100
      | none => 0 := by
  have hpred : (fun s : List Nat => s == w) = fun s => decide (s = w) := by
    funext s
    by_cases h : s = w <;> simp [h]
  unfold indexOfPath
  rw [hpred]
  cases hf : l.findIdx? (fun s => decide (s = w)) with
  | some i =>
    simp only []
    exact max_eq_right (by positivity)
  | none =>
    simp only []
    norm_num

/-- An unobserved target stays unobserved across one entry. -/
theorem notObserved_step (st : FadeState) (t : Nat) (b : Bool) (el : Nat)
    (h : el ∉ st.observed) : el ∉ (processEntry st t b).observed := by
  unfold processEntry
  cases b with
  | false => simpa using h
  | true => exact fun hm => h (List.mem_of_mem_filter hm)

/-- An entry for a different target leaves a target's scheduled count alone. -/
theorem visCount_step_ne (st : FadeState) (t : Nat) (b : Bool) (el : Nat)
    (h : t ≠ el) : (processEntry st t b).visCount el = st.visCount el := by
  unfold processEntry
  cases b with
  | false => rfl
  | true => simp [Ne.symm h]

/-- An entry for a different target keeps an observed target observed. -/
theorem observed_step_mem (st : FadeState) (t : Nat) (b : Bool) (el : Nat)
    (hne : t ≠ el) (h : el ∈ st.observed) : el ∈ (processEntry st t b).observed := by
  unfold processEntry
  cases b with
  | false => simpa using h
  | true =>
    simp only []
    exact List.mem_filter.mpr ⟨h, by simp [Ne.symm hne]⟩

/-- Once a target is no longer observed, a valid trace never schedules its
visible flag again. -/
theorem visCount_frozen (tr : List (Nat × Bool)) :
    ∀ st el, validTrace st tr = true → el ∉ st.observed →
      (processEntries st tr).visCount el = st.visCount el := by
  induction tr with
  | nil => intro st el _ _; rfl
  | cons e rest ih =>
    intro st el hval hno
    rw [validTrace] at hval
    obtain ⟨h1, h2⟩ := Bool.and_eq_true_iff.mp hval
    have ht : e.1 ∈ st.observed := by simpa using h1
    have hne : e.1 ≠ el := fun hh => hno (hh ▸ ht)
    have hstep : processEntries st (e :: rest) =
        processEntries (processEntry st e.1 e.2) rest := rfl
    rw [hstep, ih _ el h2 (notObserved_step st e.1 e.2 el hno)]
    exact visCount_step_ne st e.1 e.2 el hne

/-- For a target observed at the start of a valid trace, its visible flag is
scheduled exactly once when the trace has an intersecting entry for it, and
never otherwise. -/
theorem visCount_counted (tr : List (Nat × Bool)) :
    ∀ st el, validTrace st tr = true → el ∈ st.observed →
      (((el, true) ∈ tr → (processEntries st tr).visCount el = st.visCount el + 1) ∧
        ((el, true) ∉ tr → (processEntries st tr).visCount el = st.visCount el)) := by
  induction tr with
  | nil =>
    intro st el _ _
    exact ⟨fun h => absurd h (List.not_mem_nil _), fun _ => rfl⟩
  | cons e rest ih =>
    intro st el hval hmem
    rw [validTrace] at hval
    obtain ⟨_, h2⟩ := Bool.and_eq_true_iff.mp hval
    have hstep : processEntries st (e :: rest) =
        processEntries (processEntry st e.1 e.2) rest := rfl
    by_cases hcase : e.1 = el ∧ e.2 = true
    · obtain ⟨he1, he2⟩ := hcase
      have hout : el ∉ (processEntry st e.1 e.2).observed := by
        rw [he1, he2]
        unfold processEntry
        simp
      have hvc : (processEntry st e.1 e.2).visCount el = st.visCount el + 1 := by
        rw [he1, he2]
        unfold processEntry
        simp
      refine ⟨fun _ => ?_, fun hna => ?_⟩
      · rw [hstep, visCount_frozen rest _ el h2 hout, hvc]
      · exact absurd (by rw [← he1, ← he2]; exact List.mem_cons_self e rest) hna
    · have hne_or : e.1 ≠ el ∨ e.2 = false := by
        rcases Bool.eq_false_or_eq_true e.2 with h | h
        · exact Or.inl fun hh => hcase ⟨hh, h⟩
        · exact Or.inr h
      have hmem' : el ∈ (processEntry st e.1 e.2).observed := by
        rcases hne_or with h | h
        · exact observed_step_mem st e.1 e.2 el h hmem
        · rw [h]
          unfold processEntry
          simpa using hmem
      have hvc : (processEntry st e.1 e.2).visCount el = st.visCount el := by
        rcases hne_or with h | h
        · exact visCount_step_ne st e.1 e.2 el h
        · rw [h]; rfl
      have hmemtr : (el, true) ∈ e :: rest ↔ (el, true) ∈ rest := by
        constructor
        · intro h
          rcases List.mem_cons.mp h with h | h
          · exact absurd ⟨congrArg Prod.fst h.symm, congrArg Prod.snd h.symm⟩ hcase
          · exact h
        · exact fun h => List.mem_cons_of_mem _ h
      obtain ⟨ihy, ihn⟩ := ih (processEntry st e.1 e.2) el h2 hmem'
      refine ⟨fun hy => ?_, fun hn => ?_⟩
      · rw [hstep, ihy (hmemtr.mp hy), hvc]
      · rw [hstep, ihn fun hh => hn (hmemtr.mpr hh), hvc]

/-- Folding `classListAdd` over a list marks every listed element visible and
keeps every already-visible element visible. -/
theorem mem_foldl_classListAdd (l : List (List Nat)) :
    ∀ acc el, el ∈ l ∨ el ∈ acc → el ∈ l.foldl classListAdd acc := by
  induction l with
  | nil =>
    intro acc el h
    rcases h with h | h
    · exact absurd h (List.not_mem_nil _)
    · exact h
  | cons x xs ih =>
    intro acc el h
    have hfold : (x :: xs).foldl classListAdd acc =
        xs.foldl classListAdd (classListAdd acc x) := rfl
    rw [hfold]
    have hself : ∀ a : List (List Nat), el ∈ a → el ∈ classListAdd a x := by
      intro a ha
      unfold classListAdd
      split
      · exact ha
      · exact List.mem_append_left _ ha
    rcases h with h | h
    · rcases List.mem_cons.mp h with h | h
      · subst h
        refine ih _ _ (Or.inr ?_)
        unfold classListAdd
        split
        next hc => simpa using hc
        next => exact List.mem_append_right _ (List.mem_singleton.mpr rfl)
      · exact ih _ _ (Or.inl h)
    · exact ih _ _ (Or.inr (hself acc h))

/-! ## Claim theorems -/

/-- C1: the email validator decides the spec's concrete cases as stated:
`validateEmail` accepts "a@b.com" and rejects "a@b", "a b@c.com" and "". -/
theorem validateEmail_spec_cases :
    validateEmail "a@b.com" = true ∧ validateEmail "a@b" = false ∧
      validateEmail "a b@c.com" = false ∧ validateEmail "" = false := by
  decide

/-- C2: after the header scroll handler processes the pair
(lastScrollY, currentScrollY), the header is in the hidden state exactly when
currentScrollY exceeds both lastScrollY and the 100px threshold; in every
other case (scrolling up at any position, or not past the threshold) the
hidden state is removed. -/
theorem header_hidden_iff (st : HeaderState) (cur : Nat) :
    (handleScroll st cur).hidden = true ↔ st.lastScrollY < cur ∧ 100 < cur := by
  unfold handleScroll
  split
  next h =>
    simp only [gt_iff_lt, Bool.and_eq_true, decide_eq_true_eq] at h
    exact iff_of_true rfl ⟨h.1, h.2⟩
  next h =>
    simp only [gt_iff_lt, Bool.and_eq_true, decide_eq_true_eq, not_and] at h
    exact iff_of_false (by simp) fun hc => h hc.1 hc.2

/-- C3 as stated fails on the code: in `staggerCounterDoc` the two `fade-in`
elements are direct children of the same grid container at positional indices
1 and 2, yet the element at index 1 gets a 100ms delay and the element at
index 2 gets 0ms — the delay is not monotone non-decreasing in the element's
own positional index among the container's direct children. -/
theorem stagger_monotone_counterexample :
    closest staggerCounterDoc isGridContainer [1] = some [] ∧
      closest staggerCounterDoc isGridContainer [2] = some [] ∧
      childPaths staggerCounterDoc [] = [[0], [1], [2]] ∧
      getStaggerDelay staggerCounterDoc [1] = 100 ∧
      getStaggerDelay staggerCounterDoc [2] = 0 := by
  decide

/-- C3 (amended): the stagger delay is always nonnegative and an integer
multiple of 100ms, and for elements under the same grid container it is
monotone non-decreasing in the index the code actually resolves — the
position of the element's substituted wrapper among the container's direct
children — rather than in the element's own positional index. -/
theorem stagger_delay_bounds_monotone (root : Dom) (p : List Nat) :
    (0 ≤ getStaggerDelay root p ∧ (100 : Int) ∣ getStaggerDelay root p) ∧
      ∀ p' q, closest root isGridContainer p = some q →
        closest root isGridContainer p' = some q →
        staggerIndex root q p ≤ staggerIndex root q p' →
        getStaggerDelay root p ≤ getStaggerDelay root p' := by
  constructor
  · cases hc : closest root isGridContainer p with
    | none => simp [getStaggerDelay, hc]
    | some q =>
      have hd : getStaggerDelay root p = max 0 (staggerIndex root q p * 100) := by
        simp only [getStaggerDelay, hc]
      rw [hd]
      refine ⟨le_max_left 0 _, ?_⟩
      rcases max_choice 0 (staggerIndex root q p * 100) with h | h <;> rw [h]
      · exact dvd_zero 100
      · exact dvd_mul_left 100 _
  · intro p' q h1 h2 hle
    have hd1 : getStaggerDelay root p = max 0 (staggerIndex root q p * 100) := by
      simp only [getStaggerDelay, h1]
    have hd2 : getStaggerDelay root p' = max 0 (staggerIndex root q p' * 100) := by
      simp only [getStaggerDelay, h2]
    rw [hd1, hd2]
    exact max_le_max (le_refl 0) (mul_le_mul_of_nonneg_right hle (by norm_num))

/-- Witness for the amended C3 theorem at a concrete document: index -1
(wrapper not a direct child) is below index 1, and 0ms is below 100ms. -/
theorem stagger_delay_bounds_monotone_witness :
    closest staggerCounterDoc isGridContainer [2] = some [] ∧
      closest staggerCounterDoc isGridContainer [1] = some [] ∧
      staggerIndex staggerCounterDoc [] [2] ≤ staggerIndex staggerCounterDoc [] [1] ∧
      getStaggerDelay staggerCounterDoc [2] ≤ getStaggerDelay staggerCounterDoc [1] :=
  ⟨by decide, by decide, by decide,
    (stagger_delay_bounds_monotone staggerCounterDoc [2]).2 [1] []
      (by decide) (by decide) (by decide)⟩

/-- C4 as stated fails on the code: in `staggerCounterDoc` the second
`fade-in` element is itself a direct child of the grid container at position
2, so the claim says no substitution happens and the delay is 100ms × 2; the
code nevertheless substitutes the element's closest div — the container
itself — whose sibling index is -1, making the delay 0. -/
theorem stagger_substitution_counterexample :
    closest staggerCounterDoc isGridContainer [2] = some [] ∧
      childPaths staggerCounterDoc [] = [[0], [1], [2]] ∧
      getStaggerDelay staggerCounterDoc [2] = 0 ∧
      getStaggerDelay staggerCounterDoc [2] ≠ 100 * 2 := by
  decide

/-- C4 (amended): when a revealed element has a grid-container ancestor, the
delay is 100ms times the position, among the container's direct children, of
the element's closest article ancestor-or-self — falling back to its closest
div ancestor-or-self, then to the element itself — where the substitution is
applied unconditionally, not only when the marked element is nested; the
delay is 0 when the substituted node is not a direct child of the container,
and 0 when no ancestor matches a grid selector. -/
theorem stagger_delay_matches_stated (root : Dom) (p : List Nat) :
    getStaggerDelay root p = staggerDelayStated root p := by
  unfold getStaggerDelay staggerDelayStated
  cases hc : closest root isGridContainer p with
  | none => rfl
  | some q =>
    have hw : ((closest root (hasTag "article") p).orElse
        fun _ => closest root (hasTag "div") p).getD p = staggerWrapper root p := by
      unfold staggerWrapper
      cases closest root (hasTag "article") p with
      | some a => rfl
      | none => cases closest root (hasTag "div") p with
        | some dv => rfl
        | none => rfl
    show max 0 (staggerIndex root q p * 100) =
      match (childPaths root q).findIdx?
          (fun s => decide (s = ((closest root (hasTag "article") p).orElse
            fun _ => closest root (hasTag "div") p).getD p)) with
      | some i => (i : Int) * 100
      | none => 0
    unfold staggerIndex
    simp only [hw]
    exact indexOfPath_delay _ _

/-- C5 as stated fails on the code: re-initializing over `scopeCounterDoc`
with the scope rooted at path [0], the ParallaxEffect constructor still
selects the `parallax-element` at path [1], outside the scope — it does not
re-run its element query within the scope. -/
theorem scope_counterexample :
    (initializeModulesQueries scopeCounterDoc [0]).parallaxEls = [[1]] ∧
      withinScope [0] [1] = false := by
  decide

/-- C5 (amended): `initializeModules` hands the scope only to
`FadeInObserver`, whose element query stays within the scope subtree; the
other six modules take no scope parameter, so their queries do not depend on
the scope and always run over the whole document. -/
theorem scope_only_fadeIn (doc : Dom) (sp : List Nat) :
    (∀ p ∈ (initializeModulesQueries doc sp).fadeInEls, withinScope sp p = true) ∧
      ∀ sp',
        (initializeModulesQueries doc sp).headerEl =
            (initializeModulesQueries doc sp').headerEl ∧
          (initializeModulesQueries doc sp).menuToggleEl =
            (initializeModulesQueries doc sp').menuToggleEl ∧
          (initializeModulesQueries doc sp).menuOverlayEl =
            (initializeModulesQueries doc sp').menuOverlayEl ∧
          (initializeModulesQueries doc sp).parallaxEls =
            (initializeModulesQueries doc sp').parallaxEls ∧
          (initializeModulesQueries doc sp).anchorLinkEls =
            (initializeModulesQueries doc sp').anchorLinkEls ∧
          (initializeModulesQueries doc sp).newsletterFormEls =
            (initializeModulesQueries doc sp').newsletterFormEls ∧
          (initializeModulesQueries doc sp).lazyImageEls =
            (initializeModulesQueries doc sp').lazyImageEls := by
  constructor
  · intro p hp
    have hfe : (initializeModulesQueries doc sp).fadeInEls =
        match subtreeAt doc sp with
        | some sc => (queryAll (hasClass "fade-in") sc).map fun r => sp ++ r
        | none => [] := rfl
    rw [hfe] at hp
    split at hp
    next =>
      obtain ⟨r, _, rfl⟩ := List.mem_map.mp hp
      unfold withinScope
      rw [List.take_left]
      exact beq_self_eq_true sp
    next => exact absurd hp (List.not_mem_nil _)
  · intro sp'
    exact ⟨rfl, rfl, rfl, rfl, rfl, rfl, rfl⟩

/-- Witness for the amended C5 theorem: the fade-in element found under the
concrete scope lies within that scope. -/
theorem scope_only_fadeIn_witness :
    [0, 0] ∈ (initializeModulesQueries scopeCounterDoc [0]).fadeInEls ∧
      withinScope [0] [0, 0] = true :=
  ⟨by decide, (scope_only_fadeIn scopeCounterDoc [0]).1 [0, 0] (by decide)⟩

/-- C6 as stated fails on the code: the seven constructions share a single
try/catch, so when the first module's constructor throws, none of the
remaining six is initialized (0 completions, not 6); the error is logged. -/
theorem init_error_counterexample :
    failFirstInits.length = 7 ∧ runTry failFirstInits = (0, some "boom") := by
  decide

/-- C6 (amended): all seven constructions run inside one try/catch, so when a
module's constructor throws, the error is caught and logged — it never
surfaces — and the modules constructed before it stay initialized, but the
modules after it in the sequence are not initialized. -/
theorem init_error_stops_sequence (pre post : List (Except String Unit))
    (msg : String) (h : ∀ a ∈ pre, a = .ok ()) :
    runTry (pre ++ .error msg :: post) = (pre.length, some msg) := by
  induction pre with
  | nil => rfl
  | cons a rest ih =>
    have ha : a = .ok () := h a (List.mem_cons_self a rest)
    have hrest : ∀ b ∈ rest, b = .ok () := fun b hb => h b (List.mem_cons_of_mem a hb)
    subst ha
    have hstep : runTry ((Except.ok () :: rest) ++ .error msg :: post) =
        ((runTry (rest ++ .error msg :: post)).1 + 1,
          (runTry (rest ++ .error msg :: post)).2) := rfl
    rw [hstep, ih hrest]
    rfl

/-- Witness for the amended C6 theorem: with the second of seven
constructions throwing, exactly the first completes and the error is
logged. -/
theorem init_error_stops_sequence_witness :
    (∀ a ∈ ([.ok ()] : List (Except String Unit)), a = .ok ()) ∧
      runTry ([.ok ()] ++ .error "boom" :: [.ok (), .ok (), .ok (), .ok (), .ok ()]) =
        (1, some "boom") :=
  ⟨fun _ ha => List.mem_singleton.mp ha,
    init_error_stops_sequence [.ok ()] [.ok (), .ok (), .ok (), .ok (), .ok ()] "boom"
      (fun _ ha => List.mem_singleton.mp ha)⟩

/-- C7: under the browser contract that intersection entries are delivered
only for targets still observed, a marked element's visible flag (with its
stagger timer) is scheduled at most once, and exactly once when an
intersecting entry fires for it: the first intersecting entry unobserves the
element, so no later intersection event re-triggers it. -/
theorem fadeIn_visible_once (elems : List Nat) (tr : List (Nat × Bool)) (el : Nat)
    (hel : el ∈ elems) (hval : validTrace (initFadeState elems) tr = true) :
    (processEntries (initFadeState elems) tr).visCount el ≤ 1 ∧
      ((el, true) ∈ tr → (processEntries (initFadeState elems) tr).visCount el = 1) := by
  obtain ⟨hy, hn⟩ := visCount_counted tr (initFadeState elems) el hval hel
  constructor
  · by_cases hc : (el, true) ∈ tr
    · exact le_of_eq (hy hc)
    · exact (le_of_eq (hn hc)).trans (Nat.zero_le 1)
  · exact hy

/-- Witness for C7: a trace in which element 0 intersects once leaves its
visible flag scheduled exactly once. -/
theorem fadeIn_visible_once_witness :
    0 ∈ [0, 1] ∧
      validTrace (initFadeState [0, 1]) [(0, true), (1, false), (1, true)] = true ∧
      (processEntries (initFadeState [0, 1])
        [(0, true), (1, false), (1, true)]).visCount 0 = 1 :=
  ⟨by decide, by decide,
    (fadeIn_visible_once [0, 1] [(0, true), (1, false), (1, true)] 0
      (by decide) (by decide)).2 (by decide)⟩

/-- C8: after any mobile-menu operation the state is exactly one of the two
configurations (open / closed), and openMenu and closeMenu are idempotent on
the whole observable state — isOpen flag, overlay active class, aria
attributes and body styles are identical after one call and after two. -/
theorem menu_idempotent_two_states (w : Nat) (s : MenuState) (op : MenuOp) :
    openMenu w (openMenu w s) = openMenu w s ∧
      closeMenu (closeMenu s) = closeMenu s ∧
      (applyMenuOp w op s = openState w ∨ applyMenuOp w op s = closedState) ∧
      openState w ≠ closedState := by
  refine ⟨rfl, rfl, ?_, ?_⟩
  · cases op with
    | toggleOp =>
      simp only [applyMenuOp, toggleMenu]
      by_cases h : s.isOpen = true
      · rw [if_pos h]
        exact Or.inr rfl
      · rw [if_neg h]
        exact Or.inl rfl
    | openOp => exact Or.inl rfl
    | closeOp => exact Or.inr rfl
  · intro h
    have hopen := congrArg MenuState.isOpen h
    simp [openState, closedState] at hopen

/-- C9: in a browser without IntersectionObserver support, constructing
FadeInObserver immediately applies the end-state: every selected `.fade-in`
element gets the `visible` class; no error is raised (the embedding is a
total function returning normally). -/
theorem fadeIn_fallback_all_visible (scope : Dom) (visible : List (List Nat))
    (p : List Nat) (h : p ∈ queryAll (hasClass "fade-in") scope) :
    p ∈ fadeInConstructVisible false scope visible := by
  have hne : (queryAll (hasClass "fade-in") scope).isEmpty = false := by
    cases hq : queryAll (hasClass "fade-in") scope with
    | nil => rw [hq] at h; exact absurd h (List.not_mem_nil _)
    | cons a l => rfl
  unfold fadeInConstructVisible
  simp only [hne]
  simp only [Bool.false_eq_true, if_false]
  exact mem_foldl_classListAdd _ _ _ (Or.inl h)

/-- Witness for C9: the single fade-in element of a concrete scope is marked
visible by the fallback. -/
theorem fadeIn_fallback_all_visible_witness :
    [0] ∈ queryAll (hasClass "fade-in")
        (Dom.node "div" [] [] [Dom.node "p" ["fade-in"] [] []]) ∧
      [0] ∈ fadeInConstructVisible false
        (Dom.node "div" [] [] [Dom.node "p" ["fade-in"] [] []]) [] :=
  ⟨by decide, fadeIn_fallback_all_visible _ [] [0] (by decide)⟩

/-- C10: a newsletter submit whose trimmed email input passes validateEmail
leaves the page state unchanged — preventDefault is not called, the message
container's text and classes stay as they were, and no focus change happens;
the error message and focus occur only on the invalid branch. -/
theorem newsletter_valid_frame (inputPresent : Bool) (value : String)
    (msgPresent : Bool) (st : SubmitOutcome)
    (h : validateEmail (jsTrim value) = true) :
    handleSubmit inputPresent value msgPresent st = st := by
  cases inputPresent with
  | false => rfl
  | true =>
    unfold handleSubmit
    simp [h]

/-- Witness for C10: a concrete valid submission (spaces removed by trim) is
left untouched. -/
theorem newsletter_valid_frame_witness :
    validateEmail (jsTrim " a@b.com ") = true ∧
      handleSubmit true " a@b.com " true
          { defaultPrevented := false, msgText := "", msgClasses := [],
            inputFocused := false } =
        { defaultPrevented := false, msgText := "", msgClasses := [],
          inputFocused := false } :=
  ⟨by decide, newsletter_valid_frame true " a@b.com " true _ (by decide)⟩

end Ryssa
